import Mathlib

/-!
Verification of the retrieval-augmented generation core of the
`doc-agent-mlt` repository, as a shallow embedding in Lean 4.

Python strings are modelled as `List Char` (sequences of code points);
Python ints as `Int`/`Nat` (Python ints are unbounded, so no wrap-around
modelling is needed); float similarity scores as `ℚ` (no arithmetic is
performed on them in the modelled code, only comparisons); fallible code
as `Except`/`Option`; external collaborators (the sentence-embedding
model, the LLM endpoint, the database) as oracle function parameters.

Sources embedded:
  app/utils/helper.py           (clean_json_response)
  app/processors/vector_processor.py
  app/processors/content_generator.py
  app/config.py                 (the constants the claims mention)
-/

/-- Python strings are sequences of code points. -/
abbrev PyStr := List Char

/-- Python `str.strip()` with no arguments: drop leading and trailing
whitespace. -/
def pyStrip (s : PyStr) : PyStr :=
  ((s.dropWhile Char.isWhitespace).reverse.dropWhile Char.isWhitespace).reverse

/-- Python `str.split()` with no arguments: split on runs of whitespace,
discarding empty pieces.  Auxiliary accumulator holds the current word
reversed. -/
def pySplitAux (acc : List Char) : List Char → List (List Char)
  | [] => if acc.isEmpty then [] else [acc.reverse]
  | c :: cs =>
    if c.isWhitespace then
      if acc.isEmpty then pySplitAux [] cs else acc.reverse :: pySplitAux [] cs
    else pySplitAux (c :: acc) cs

/-- Python `str.split()` with no arguments. -/
def pySplit (s : PyStr) : List (List Char) := pySplitAux [] s

/-- `listStarts pat s` holds when `s` begins with `pat`. -/
def listStarts : List Char → List Char → Bool
  | [], _ => true
  | _ :: _, [] => false
  | p :: ps, c :: cs => p == c && listStarts ps cs

/-- Python `pat in s` for strings: substring containment. -/
def isSubstr (pat : List Char) : List Char → Bool
  | [] => pat.isEmpty
  | c :: rest => listStarts pat (c :: rest) || isSubstr pat rest

/-- The double-quote character. -/
def dq : Char := Char.ofNat 34

/-- The single-quote character. -/
def squote : Char := Char.ofNat 39

/-- The left-brace character. -/
def lbrace : Char := Char.ofNat 123

/-- The right-brace character. -/
def rbrace : Char := Char.ofNat 125

/-! ## JSON values and a model of Python `json.loads`

`app/utils/helper.py` parses LLM output with `json.loads` plus regex
repair.  JSON numbers are embedded over `Int`: all data the claims are
about are integer-valued (fractional literals would simply fail to parse
in this embedding; no modelled input contains one). -/

inductive JsonVal where
  | null : JsonVal
  | jbool : Bool → JsonVal
  | jnum : Int → JsonVal
  | jstr : List Char → JsonVal
  | jarr : List JsonVal → JsonVal
  | jobj : List (List Char × JsonVal) → JsonVal

/-- JSON insignificant whitespace, as accepted by Python `json.loads`. -/
def isJsonWs (c : Char) : Bool := c == ' ' || c == '\t' || c == '\n' || c == '\r'

/-- Python regex `\s` on the ASCII range (space, tab, newline, carriage
return, vertical tab, form feed). -/
def isRegexWs (c : Char) : Bool :=
  c == ' ' || c == '\t' || c == '\n' || c == '\r' || c == Char.ofNat 11 || c == Char.ofNat 12

/-- Skip JSON whitespace. -/
def skipWs (s : List Char) : List Char := s.dropWhile isJsonWs

/-- A control character (rejected inside JSON string literals by
`json.loads` in its default strict mode). -/
def isCtrl (c : Char) : Bool := c.toNat < 32

/-- Python regex `\w`: letters, digits and underscore. -/
def isWordCh (c : Char) : Bool := c.isAlphanum || c == '_'

/-- Body of a JSON string literal after the opening quote: plain
characters up to the closing quote.  Escapes and raw control characters
make the parse fail (the modelled inputs contain neither; Python would
accept escapes). -/
def parseStrBody (acc : List Char) : List Char → Option (List Char × List Char)
  | [] => none
  | c :: rest =>
    if c == dq then some (acc.reverse, rest)
    else if c == '\\' || isCtrl c then none
    else parseStrBody (c :: acc) rest

/-- Digits to a natural number. -/
def digitsToNat (ds : List Char) : Nat :=
  ds.foldl (fun a c => a * 10 + (c.toNat - 48)) 0

/-- An integer JSON number token. -/
def parseNumTok (s : List Char) : Option (JsonVal × List Char) :=
  match s with
  | '-' :: rest =>
    let ds := rest.takeWhile Char.isDigit
    if ds.isEmpty then none
    else some (.jnum (-(digitsToNat ds : Int)), rest.drop ds.length)
  | _ =>
    let ds := s.takeWhile Char.isDigit
    if ds.isEmpty then none
    else some (.jnum (digitsToNat ds : Int), s.drop ds.length)

mutual

/-- One JSON value, fuelled recursive-descent; returns the value and the
unconsumed remainder. -/
def parseVal : Nat → List Char → Option (JsonVal × List Char)
  | 0, _ => none
  | fuel + 1, s0 =>
    let s := skipWs s0
    if listStarts ("true".toList) s then some (.jbool true, s.drop 4)
    else if listStarts ("false".toList) s then some (.jbool false, s.drop 5)
    else if listStarts ("null".toList) s then some (.null, s.drop 4)
    else
      match s with
      | [] => none
      | c :: rest =>
        if c == dq then
          match parseStrBody [] rest with
          | some (t, r) => some (.jstr t, r)
          | none => none
        else if c == '[' then
          match skipWs rest with
          | c2 :: r2 =>
            if c2 == ']' then some (.jarr [], r2)
            else
              match parseArrElems fuel (c2 :: r2) with
              | some (es, r3) => some (.jarr es, r3)
              | none => none
          | [] => none
        else if c == lbrace then
          match skipWs rest with
          | c2 :: r2 =>
            if c2 == rbrace then some (.jobj [], r2)
            else
              match parseObjFields fuel (c2 :: r2) with
              | some (fs, r3) => some (.jobj fs, r3)
              | none => none
          | [] => none
        else parseNumTok s

/-- Elements of a nonempty JSON array, up to and including the closing
bracket. -/
def parseArrElems : Nat → List Char → Option (List JsonVal × List Char)
  | 0, _ => none
  | fuel + 1, s =>
    match parseVal fuel s with
    | none => none
    | some (v, r) =>
      match skipWs r with
      | ',' :: r2 =>
        match parseArrElems fuel r2 with
        | some (es, r3) => some (v :: es, r3)
        | none => none
      | c :: r2 => if c == ']' then some ([v], r2) else none
      | [] => none

/-- Fields of a nonempty JSON object, up to and including the closing
brace. -/
def parseObjFields : Nat → List Char → Option (List (List Char × JsonVal) × List Char)
  | 0, _ => none
  | fuel + 1, s =>
    match skipWs s with
    | c :: rest =>
      if c == dq then
        match parseStrBody [] rest with
        | some (k, r) =>
          match skipWs r with
          | ':' :: r2 =>
            match parseVal fuel r2 with
            | some (v, r3) =>
              match skipWs r3 with
              | ',' :: r4 =>
                match parseObjFields fuel r4 with
                | some (fs, r5) => some ((k, v) :: fs, r5)
                | none => none
              | c2 :: r4 => if c2 == rbrace then some ([(k, v)], r4) else none
              | [] => none
            | none => none
          | _ => none
        | none => none
      else none
    | [] => none

end

/-- Model of Python `json.loads`: parse one value and require only
whitespace to remain.  The fuel is ample for the input length: every
recursive call consumes input. -/
def json_loads (s : List Char) : Option JsonVal :=
  match parseVal (2 * s.length + 4) s with
  | some (v, r) => if (skipWs r).isEmpty then some v else none
  | none => none

/-! ## Model of `clean_json_response` (app/utils/helper.py, lines 9-88)

Each `re.sub`/`re.findall` call in the source is embedded as a direct
left-to-right scanner with the same non-overlapping match semantics; a
fuel argument (always instantiated with the input length, which every
step strictly decreases) keeps the recursion structural. -/

/-- `re.sub(r'```(?:json)?', '', text)`: remove every code-fence marker,
preferring the longer ````json` alternative as the regex engine does. -/
def stripFencesF : Nat → List Char → List Char
  | 0, s => s
  | fuel + 1, s =>
    match s with
    | [] => []
    | c :: rest =>
      if listStarts ("```json".toList) (c :: rest) then stripFencesF fuel ((c :: rest).drop 7)
      else if listStarts ("```".toList) (c :: rest) then stripFencesF fuel ((c :: rest).drop 3)
      else c :: stripFencesF fuel rest

/-- Fence removal at adequate fuel. -/
def stripFences (s : List Char) : List Char := stripFencesF s.length s

/-- `re.sub(r'^[^[\{]*', '', text)`: drop the leading run of characters
that are neither `[` nor `{`. -/
def dropBeforeOpener (s : List Char) : List Char :=
  s.dropWhile (fun c => !(c == '[' || c == lbrace))

/-- `re.sub(r'[^}\]]*$', '', text)`: drop the trailing run of characters
that are neither `}` nor `]`. -/
def dropAfterCloser (s : List Char) : List Char :=
  (s.reverse.dropWhile (fun c => !(c == ']' || c == rbrace))).reverse

/-- `re.sub(r'(\w+):', r'"\1":', text)`: wrap every word run that is
immediately followed by a colon in double quotes.  (A greedy `\w+` match
can only succeed on the full run, so scanning whole runs is exact.) -/
def quoteWordKeysF : Nat → List Char → List Char
  | 0, s => s
  | fuel + 1, s =>
    match s with
    | [] => []
    | c :: rest =>
      if isWordCh c then
        let run := (c :: rest).takeWhile isWordCh
        let after := (c :: rest).drop run.length
        match after with
        | ':' :: r2 => dq :: (run ++ dq :: ':' :: quoteWordKeysF fuel r2)
        | _ => run ++ quoteWordKeysF fuel after
      else c :: quoteWordKeysF fuel rest

/-- Key-quoting repair at adequate fuel. -/
def quoteWordKeys (s : List Char) : List Char := quoteWordKeysF s.length s

/-- `re.sub(r"'([^']*)'", r'"\1"', text)`: replace each non-overlapping
pair of single quotes (with no single quote between them) by double
quotes. -/
def singleToDoubleF : Nat → List Char → List Char
  | 0, s => s
  | fuel + 1, s =>
    match s with
    | [] => []
    | c :: rest =>
      if c == squote then
        let mid := rest.takeWhile (fun d => !(d == squote))
        let after := rest.drop mid.length
        match after with
        | _ :: r2 => dq :: (mid ++ dq :: singleToDoubleF fuel r2)
        | [] => c :: rest
      else c :: singleToDoubleF fuel rest

/-- Single-quote repair at adequate fuel. -/
def singleToDouble (s : List Char) : List Char := singleToDoubleF s.length s

/-- `re.sub(r',(\s*[}\]])', r'\1', text)`: delete a comma that is
followed (possibly after whitespace) by a closing brace or bracket. -/
def dropTrailingCommasF : Nat → List Char → List Char
  | 0, s => s
  | fuel + 1, s =>
    match s with
    | [] => []
    | c :: rest =>
      if c == ',' then
        let w := rest.takeWhile isRegexWs
        let after := rest.drop w.length
        match after with
        | d :: r2 =>
          if d == rbrace || d == ']' then w ++ d :: dropTrailingCommasF fuel r2
          else ',' :: dropTrailingCommasF fuel rest
        | [] => ',' :: dropTrailingCommasF fuel rest
      else c :: dropTrailingCommasF fuel rest

/-- Trailing-comma repair at adequate fuel. -/
def dropTrailingCommas (s : List Char) : List Char := dropTrailingCommasF s.length s

/-- `re.sub(r'"\s*\n\s*"', r'" "', text)`: two double quotes separated
only by whitespace that includes a newline collapse to `" "`. -/
def joinBrokenStringsF : Nat → List Char → List Char
  | 0, s => s
  | fuel + 1, s =>
    match s with
    | [] => []
    | c :: rest =>
      if c == dq then
        let w := rest.takeWhile isRegexWs
        let after := rest.drop w.length
        if w.any (fun d => d == '\n') then
          match after with
          | d :: r2 =>
            if d == dq then dq :: ' ' :: dq :: joinBrokenStringsF fuel r2
            else dq :: joinBrokenStringsF fuel rest
          | [] => dq :: joinBrokenStringsF fuel rest
        else dq :: joinBrokenStringsF fuel rest
      else c :: joinBrokenStringsF fuel rest

/-- Broken-string repair at adequate fuel. -/
def joinBrokenStrings (s : List Char) : List Char := joinBrokenStringsF s.length s

/-- A character that is not a brace. -/
def nonBrace (c : Char) : Bool := !(c == lbrace || c == rbrace)

/-- Tail of a match of `re` pattern `\{[^{}]*(?:\{[^{}]*\}[^{}]*)*\}`
after the opening brace: a non-brace run, then zero or more singly
nested `{...}` groups each followed by a non-brace run, then the closing
brace.  Runs contain no brace, so regex backtracking can never rescue a
failed attempt: this scanner is exact. -/
def objTail : Nat → List Char → Option (List Char × List Char)
  | 0, _ => none
  | fuel + 1, s =>
    let run := s.takeWhile nonBrace
    let after := s.drop run.length
    match after with
    | [] => none
    | d :: r2 =>
      if d == rbrace then some (run ++ [rbrace], r2)
      else
        let run2 := r2.takeWhile nonBrace
        let after2 := r2.drop run2.length
        match after2 with
        | e :: r3 =>
          if e == rbrace then
            match objTail fuel r3 with
            | some (t, rest) => some (run ++ lbrace :: run2 ++ rbrace :: t, rest)
            | none => none
          else none
        | [] => none

/-- `re.findall(r'\{[^{}]*(?:\{[^{}]*\}[^{}]*)*\}', text)`: collect the
non-overlapping matches left to right, advancing one character past a
failed start. -/
def findObjectsF : Nat → List Char → List (List Char)
  | 0, _ => []
  | fuel + 1, s =>
    match s with
    | [] => []
    | c :: rest =>
      if c == lbrace then
        match objTail (rest.length + 1) rest with
        | some (body, r2) => (lbrace :: body) :: findObjectsF fuel r2
        | none => findObjectsF fuel rest
      else findObjectsF fuel rest

/-- Object extraction at adequate fuel. -/
def findObjects (s : List Char) : List (List Char) := findObjectsF s.length s

/-- `re.findall(r'\[.*\]', text, re.DOTALL)` (and its `{...}` twin): the
greedy dot-all pattern yields at most one match, spanning from the first
opener to the last closer when the closer comes later. -/
def extractSpan (oc cc : Char) (s : List Char) : Option (List Char) :=
  match s.dropWhile (fun c => !(c == oc)) with
  | [] => none
  | c0 :: u =>
    let r := u.reverse.dropWhile (fun c => !(c == cc))
    if r.isEmpty then none else some (c0 :: r.reverse)

/-- Shared tail of strategies 1-3 of `clean_json_response`: a parsed
list is returned as is, a parsed object is wrapped in a one-element
list, any other parse result falls through to the next strategy. -/
def loadsAsList (t : List Char) : Option (List JsonVal) :=
  match json_loads t with
  | some (.jarr l) => some l
  | some (.jobj f) => some [.jobj f]
  | _ => none

/-- `clean_json_response` (app/utils/helper.py lines 9-88).  The file
side effects and logging of the source are not modelled; note that
strategy 3 reassigns the local `text`, so strategy 4 operates on the
repaired text. -/
def clean_json_response (response : List Char) : List JsonVal :=
  if (pyStrip response).isEmpty then []
  else
    let text := pyStrip (stripFences response)
    match loadsAsList text with
    | some l => l
    | none =>
      match (extractSpan '[' ']' text).bind loadsAsList with
      | some l => l
      | none =>
        match (extractSpan lbrace rbrace text).bind loadsAsList with
        | some l => l
        | none =>
          let t := joinBrokenStrings (dropTrailingCommas (singleToDouble (quoteWordKeys
                     (dropAfterCloser (dropBeforeOpener text)))))
          match loadsAsList t with
          | some l => l
          | none =>
            (findObjects t).filterMap (fun o =>
              json_loads (dropTrailingCommas (singleToDouble (quoteWordKeys (pyStrip o)))))

/-! ## Configuration constants (app/config.py)

Only the fields the claims mention. -/

/-- `VectorProcessingSettings.min_context_chars` (config.py line 38). -/
def min_context_chars : Int := 100

/-- `VectorProcessingSettings.context_separator` (config.py line 39). -/
def context_separator : PyStr := '\n' :: '\n' :: []

/-- `QuestionGenerationSettings.questions_per_chunk` (config.py line 56). -/
def questions_per_chunk : Nat := 15

/-- `QuestionGenerationSettings.flashcards_per_chunk` (config.py line 57). -/
def flashcards_per_chunk : Nat := 15

/-- `RAGSettings.retrieval_top_k` (config.py line 88). -/
def retrieval_top_k : Nat := 8

/-- `RAGSettings.similarity_threshold` (config.py line 89). -/
def similarity_threshold : ℚ := 1 / 2

/-- `RAGSettings.max_context_length` (config.py line 91). -/
def max_context_length : Int := 3000

/-- `max_retries` hard-coded in `ContentGenerator.generate_content`
(content_generator.py line 39). -/
def gen_max_retries : Nat := 3

/-! ## Embedding Engine: `VectorProcessor.create_embeddings`
(vector_processor.py lines 42-88)

The sentence-transformer model is an oracle `encode`; the embedding
cache is an association list keyed by the chunk text (the source keys by
`md5(text)`, a deterministic injective-in-intent digest, so keying by
the text itself is the faithful pure model).  Vector entries have an
abstract type `α`.  The cache-population writes (lines 74-77) affect
only later calls, not the returned value, and are not part of the
returned state here; the claims are about the returned vectors. -/

/-- First loop of `create_embeddings` (lines 51-59): partition the input
into cache hits `(index, vector)` and cache misses (text and index, both
in input order), starting at index `i`. -/
def hitsMisses (cache : List (PyStr × α)) : List PyStr → Nat → List (Nat × α) × List PyStr × List Nat
  | [], _ => ([], [], [])
  | t :: ts, i =>
    let r := hitsMisses cache ts (i + 1)
    match cache.lookup t with
    | some v => ((i, v) :: r.1, r.2.1, r.2.2)
    | none => (r.1, t :: r.2.1, i :: r.2.2)

/-- `create_embeddings` (lines 42-88): cache hits are collected with
their indices, misses are encoded in one batch, the two lists are
concatenated, sorted by original index (the Python `list.sort` with
distinct integer keys; any comparison sort yields the same list) and
projected to the vectors. -/
def create_embeddings (encode : List PyStr → List α) (cache : List (PyStr × α))
    (texts : List PyStr) : List α :=
  if texts.isEmpty then []
  else
    let r := hitsMisses cache texts 0
    let newVecs := if r.2.1.isEmpty then [] else encode r.2.1
    let pairs := r.1 ++ r.2.2.zip newVecs
    (pairs.insertionSort (fun a b => a.1 ≤ b.1)).map Prod.snd

/-- Modelled from the spec (§4.2): the cache misses of a batch, in input
order — the texts "needing inference". -/
def missTexts (cache : List (PyStr × α)) (texts : List PyStr) : List PyStr :=
  texts.filter (fun t => (cache.lookup t).isNone)

/-- Modelled from the spec (§4.2): "merge hits and newly computed
vectors back into original input order" — walk the input once, taking a
cache hit in place and otherwise consuming the next newly computed
vector. -/
def mergeBack (cache : List (PyStr × α)) : List PyStr → List α → List α
  | [], _ => []
  | t :: ts, vs =>
    match cache.lookup t with
    | some v => v :: mergeBack cache ts vs
    | none =>
      match vs with
      | [] => []
      | v :: vs2 => v :: mergeBack cache ts vs2

/-! ## Chunk-and-Embed Pipeline: `VectorProcessor.chunk_and_embed_document`
(vector_processor.py lines 90-117)

The database session is modelled as the list of persisted chunk rows;
the text splitter (built by `chunk_processor.setup_text_splitter` from
the word count) and the embedding engine are oracles; uuid generation is
an oracle from the chunk position.  The result carries the returned
value (`Except` for the raised `ValueError`), the post-call database
state (rollback restores the input state), and whether the splitter and
the embedding engine were invoked. -/

structure ChunkRow where
  id : Nat
  document_id : PyStr
  chunk_index : Nat
  content : PyStr
  word_count : Nat
  embedding : List Int
deriving DecidableEq

/-- The chunk rows built at lines 119-134 (the `extra_metadata` dict,
derived from `content`, is omitted: no claim mentions it). -/
def buildRows (ids : Nat → Nat) (docId : PyStr) (chunks : List PyStr)
    (embs : List (List Int)) : List ChunkRow :=
  (chunks.zip embs).enum.map (fun p =>
    { id := ids p.1, document_id := docId, chunk_index := p.1,
      content := p.2.1, word_count := (pySplit p.2.1).length, embedding := p.2.2 })

/-- `chunk_and_embed_document` (lines 90-117). -/
def chunk_and_embed_document (split : PyStr → List PyStr)
    (embed : List PyStr → List (List Int)) (ids : Nat → Nat)
    (db : List ChunkRow) (docId : PyStr) (text : PyStr) :
    Except Unit (List ChunkRow) × List ChunkRow × Bool × Bool :=
  if db.any (fun r => r.document_id == docId) then
    (.ok (db.filter (fun r => r.document_id == docId)), db, false, false)
  else
    let chunks := split text
    if chunks.isEmpty then (.ok [], db, true, false)
    else
      let embs := embed chunks
      if embs.length = chunks.length then
        let rows := buildRows ids docId chunks embs
        (.ok rows, db ++ rows, true, true)
      else (.error (), db, true, true)

/-! ## Similarity Search: `VectorProcessor.similarity_search`
(vector_processor.py lines 160-214)

The pgvector query (embed the query, `ORDER BY similarity_score DESC
LIMIT top_k`) is an oracle producing either the fetched rows or an
internal failure (an exception anywhere in the `try` body); scores are
modelled as `ℚ`.  Only the columns the claims mention are kept. -/

structure SearchRow where
  content : PyStr
  similarity_score : ℚ
deriving DecidableEq

/-- `similarity_search`: blank queries short-circuit to `[]` (line 163);
an internal failure is caught and converted to `[]` (lines 211-214);
fetched rows are post-filtered by the similarity threshold (line 197),
preserving the database order. -/
def similarity_search (query : PyStr) (fetch : Except PyStr (List SearchRow)) :
    List SearchRow :=
  if (pyStrip query).isEmpty then []
  else
    match fetch with
    | .error _ => []
    | .ok rows => rows.filter (fun r => decide (similarity_threshold ≤ r.similarity_score))

/-! ## Context Assembler: `VectorProcessor.get_relevant_context`
(vector_processor.py lines 216-254) -/

/-- The truncation marker appended at line 243. -/
def trunc_marker : PyStr := '.' :: '.' :: '.' :: []

/-- The accumulation loop of `get_relevant_context` (lines 230-245):
`cur` is `current_length`.  A chunk is appended in full while the
accumulated length stays within `maxChars`; at the first overflow the
chunk is truncated to the remaining space minus 3 and marked — but only
when the remaining space exceeds `min_context_chars` — and the loop
stops. -/
def context_parts (maxChars : Int) : List SearchRow → Int → List PyStr
  | [], _ => []
  | r :: rest, cur =>
    let content := pyStrip r.content
    let len : Int := content.length
    if cur + len ≤ maxChars then content :: context_parts maxChars rest (cur + len)
    else
      let remaining := maxChars - cur
      if min_context_chars < remaining then
        [content.take (remaining - 3).toNat ++ trunc_marker]
      else []

/-- Python `sep.join(parts)`. -/
def joinSep (sep : PyStr) : List PyStr → PyStr
  | [] => []
  | [p] => p
  | p :: q :: ps => p ++ sep ++ joinSep sep (q :: ps)

/-- `get_relevant_context` (lines 216-254): the similarity-search
outcome (with `top_k = retrieval_top_k`) is the `search` argument; an
internal failure is caught and converted to `""` (lines 251-254); no
results yield `""` (line 226); otherwise the accumulated parts are
joined with `context_separator`. -/
def get_relevant_context (search : Except PyStr (List SearchRow)) (maxChars : Int) : PyStr :=
  match search with
  | .error _ => []
  | .ok rs =>
    if rs.isEmpty then []
    else joinSep context_separator (context_parts maxChars rs 0)

/-- Modelled from the spec (§4.5, amended by the C1 counterexample): the
assembled parts as a function of the remaining budget — each chunk in
full while it fits; the first chunk that does not fit is truncated and
marked only when more than `min_context_chars` of budget remain,
otherwise dropped; accumulation stops at the first overflow either
way. -/
def assembleSpec (budget : Int) : List SearchRow → List PyStr
  | [] => []
  | r :: rest =>
    let content := pyStrip r.content
    if (content.length : Int) ≤ budget then
      content :: assembleSpec (budget - content.length) rest
    else if min_context_chars < budget then
      [content.take (budget - 3).toNat ++ trunc_marker]
    else []

/-! ## Generation Client: `ContentGenerator.generate_content`
(content_generator.py lines 37-100)

The LLM chat endpoint is an oracle from the attempt index to either a
response or the text of the raised exception.  The prompt-keyed response
cache is an association list (the source keys by `md5(prompt)`).  The
`time.sleep` backoff between attempts — exponential with jitter for
rate-limit-shaped errors, a fixed half second otherwise — only delays,
so the branch on the error shape is kept but both arms continue
identically. -/

/-- A rate-limit-shaped error: its text contains `"429"` or (case
insensitively) `"rate"` (line 79). -/
def rate_shaped (e : PyStr) : Bool :=
  isSubstr ("429".toList) e || isSubstr ("rate".toList) (e.map Char.toLower)

/-- The attempt loop of `generate_content` (`for attempt in
range(max_retries + 1)`), with the attempt index `i` and the remaining
iterations as fuel.  Returns the returned text, the number of LLM calls
issued, and the final cache. -/
def generate_content_attempts (cache : List (PyStr × PyStr)) (prompt : PyStr)
    (llm : Nat → Except PyStr PyStr) : Nat → Nat → PyStr × Nat × List (PyStr × PyStr)
  | 0, _ => ([], 0, cache)
  | fuel + 1, i =>
    match cache.lookup prompt with
    | some cached => (cached, 0, cache)
    | none =>
      match llm i with
      | .ok resp =>
        let cache2 :=
          if 50 < resp.length ∧ cache.length < 1000 then (prompt, resp) :: cache else cache
        (resp, 1, cache2)
      | .error e =>
        if rate_shaped e then
          if i < gen_max_retries then
            let rec1 := generate_content_attempts cache prompt llm fuel (i + 1)
            (rec1.1, rec1.2.1 + 1, rec1.2.2)
          else ([], 1, cache)
        else
          if i < gen_max_retries then
            let rec1 := generate_content_attempts cache prompt llm fuel (i + 1)
            (rec1.1, rec1.2.1 + 1, rec1.2.2)
          else ([], 1, cache)

/-- `generate_content` (lines 37-100): at most `gen_max_retries + 1 = 4`
attempts; every exception is caught; exhaustion returns `""`. -/
def generate_content (cache : List (PyStr × PyStr)) (prompt : PyStr)
    (llm : Nat → Except PyStr PyStr) : PyStr × Nat × List (PyStr × PyStr) :=
  generate_content_attempts cache prompt llm (gen_max_retries + 1) 0

/-! ## Structured-Item Generator (content_generator.py lines 26-35,
102-178) -/

/-- Python truthiness of a JSON value (`None`, `False`, `0`, `""`, `[]`
and `{}` are falsy). -/
def truthy : JsonVal → Bool
  | .null => false
  | .jbool b => b
  | .jnum n => !(n == 0)
  | .jstr s => !s.isEmpty
  | .jarr l => !l.isEmpty
  | .jobj f => !f.isEmpty

/-- Truthiness of `dict.get`'s result (`None` when the key is absent).  -/
def truthyOpt : Option JsonVal → Bool
  | none => false
  | some v => truthy v

/-- `dict.get` on a parsed object: `json.loads` keeps the last duplicate
key, so lookup scans from the right. -/
def objGet (fields : List (List Char × JsonVal)) (key : List Char) : Option JsonVal :=
  fields.reverse.lookup key

/-- Python `len` on a JSON value: defined for strings, arrays and
objects, a `TypeError` (here `none`) otherwise. -/
def pyLen : JsonVal → Option Nat
  | .jstr s => some s.length
  | .jarr l => some l.length
  | .jobj f => some f.length
  | _ => none

/-- `_validate_quiz_item` (lines 26-32).  `some b` is the truthiness of
the returned chain value; `none` models the exception Python raises when
the item is not a dict (`.get` on a non-dict) or `options` is truthy but
unsized (`len` raises). -/
def validate_quiz_item : JsonVal → Option Bool
  | .jobj f =>
    if !truthyOpt (objGet f ("question".toList)) then some false
    else if !truthyOpt (objGet f ("correct_answer".toList)) then some false
    else
      match objGet f ("options".toList) with
      | none => some false
      | some opts =>
        if !truthy opts then some false
        else
          match pyLen opts with
          | some n => some (2 ≤ n)
          | none => none
  | _ => none

/-- `_validate_flashcard_item` (lines 34-35). -/
def validate_flashcard_item : JsonVal → Option Bool
  | .jobj f =>
    some (truthyOpt (objGet f ("question".toList)) && truthyOpt (objGet f ("answer".toList)))
  | _ => none

/-- `generate_json_items` (lines 102-128) applied to the response text
of one generation call: empty response → `[]`; parse via
`clean_json_response`; no items → `[]`; a validator exception anywhere
aborts the call (`except` → `[]`); surviving items are filtered by
validator truthiness and truncated to the requested count.  (The debug
file append at lines 114-118 is a side effect with no bearing on the
returned value.) -/
def generate_json_items (response : PyStr) (target : Nat)
    (validator : JsonVal → Option Bool) : List JsonVal :=
  if response.isEmpty then []
  else
    let items := clean_json_response response
    if items.isEmpty then []
    else if items.any (fun it => (validator it).isNone) then []
    else (items.filter (fun it => (validator it).getD false)).take target

/-- The loop of `_generate_content_chunked` (lines 138-162).  `fuel` is
the remaining iterations of `range(num_calls)`, `idx` the call index,
`cs` the current (mutable) chunk size, `acc` the accumulated valid
items, `fc` the failed-call count.  `respond` is the LLM response text
for a given call index and requested count.  Returns the accumulated
items, the trace of issued calls as `(call index, requested count)`
pairs, and the final chunk size.  `remaining` and `current_chunk` are
`Int` exactly as Python computes them; `len(all_items) <
target_count * 0.5` is the exact integer comparison
`2 * len < target`. -/
def chunkedLoop (respond : Nat → Nat → PyStr) (validator : JsonVal → Option Bool)
    (target : Nat) : Nat → Nat → Nat → List JsonVal → Nat →
    List JsonVal × List (Nat × Nat) × Nat
  | 0, _, cs, acc, _ => (acc, [], cs)
  | fuel + 1, idx, cs, acc, fc =>
    let remaining : Int := (target : Int) - acc.length
    let current : Int := min (cs : Int) remaining
    if current ≤ 0 then (acc, [], cs)
    else
      let cur := current.toNat
      let items := generate_json_items (respond idx cur) cur validator
      if items.isEmpty then
        let fc2 := fc + 1
        let cs2 := if 2 ≤ fc2 ∧ 2 * acc.length < target then max 1 (cs / 2) else cs
        if target ≤ acc.length then (acc, [(idx, cur)], cs2)
        else
          let r := chunkedLoop respond validator target fuel (idx + 1) cs2 acc fc2
          (r.1, (idx, cur) :: r.2.1, r.2.2)
      else
        let acc2 := acc ++ items
        if target ≤ acc2.length then (acc2, [(idx, cur)], cs)
        else
          let r := chunkedLoop respond validator target fuel (idx + 1) cs acc2 fc
          (r.1, (idx, cur) :: r.2.1, r.2.2)

/-- `_generate_content_chunked` (lines 130-166): `num_calls` is computed
once from the initial chunk size; the final result is truncated to
`target`. -/
def generate_content_chunked (respond : Nat → Nat → PyStr)
    (validator : JsonVal → Option Bool) (target cs : Nat) :
    List JsonVal × List (Nat × Nat) × Nat :=
  let numCalls := (target + cs - 1) / cs
  let r := chunkedLoop respond validator target numCalls 0 cs [] 0
  (r.1.take target, r.2.1, r.2.2)

/-- `generate_questions_chunked` (lines 168-172). -/
def generate_questions_chunked (respond : Nat → Nat → PyStr) (target : Nat) :
    List JsonVal × List (Nat × Nat) × Nat :=
  generate_content_chunked respond validate_quiz_item target questions_per_chunk

/-- `generate_flashcards_chunked` (lines 174-178). -/
def generate_flashcards_chunked (respond : Nat → Nat → PyStr) (target : Nat) :
    List JsonVal × List (Nat × Nat) × Nat :=
  generate_content_chunked respond validate_flashcard_item target flashcards_per_chunk

/-! ## Theorems -/

/-! ### C8: JSON-cleaning input shapes -/

/-- A clean JSON array: `[{"a": 1}]`. -/
def inClean : List Char := '[' :: lbrace :: dq :: 'a' :: dq :: ':' :: ' ' :: '1' :: rbrace :: ']' :: []

/-- The same array wrapped in a markdown code fence. -/
def inFence : List Char := ("```json".toList) ++ '\n' :: inClean ++ '\n' :: ("```".toList)

/-- An array with single-quoted strings and a trailing comma. -/
def inSingle : List Char :=
  '[' :: squote :: 'a' :: squote :: ',' :: ' ' :: squote :: 'b' :: squote :: ',' :: ']' :: []

/-- Free text surrounding a valid JSON object: `Result is {"q": "A"} ok`. -/
def inFree : List Char :=
  ("Result is ".toList) ++ lbrace :: dq :: 'q' :: dq :: ':' :: ' ' :: dq :: 'A' :: dq :: rbrace :: (" ok".toList)

/-- Fully non-JSON text. -/
def inNoise : List Char := "no structured data here".toList

/-- Claim C8: `clean_json_response` yields the embedded structured data
(as a list) for a clean JSON array, a fenced array, an array with
single-quoted strings and trailing commas, and free text surrounding a
valid object (wrapped in a one-element list); fully non-JSON text yields
the empty list. -/
theorem c8_json_cleaning_shapes :
    clean_json_response inClean = [.jobj [(['a'], .jnum 1)]]
    ∧ clean_json_response inFence = [.jobj [(['a'], .jnum 1)]]
    ∧ clean_json_response inSingle = [.jstr ['a'], .jstr ['b']]
    ∧ clean_json_response inFree = [.jobj [(['q'], .jstr ['A'])]]
    ∧ clean_json_response inNoise = [] :=
  ⟨rfl, rfl, rfl, rfl, rfl⟩

/-! ### C10: internal retrieval failures degrade to empty results -/

/-- Claim C10: `similarity_search` converts any internal failure to the
empty result list, and `get_relevant_context` converts any internal
failure to the empty string — indistinguishable, at the public
interface, from a legitimate empty retrieval. -/
theorem c10_failures_degrade_to_empty :
    ∀ (e : PyStr) (q : PyStr) (mc : Int),
      similarity_search q (.error e) = []
      ∧ get_relevant_context (.error e) mc = []
      ∧ get_relevant_context (.ok []) mc = [] := by
  intro e q mc
  refine ⟨?_, rfl, rfl⟩
  unfold similarity_search
  split <;> rfl

/-! ### C3: the chunked generators never exceed the target count -/

/-- Claim C3: for every response oracle and `target_count`,
`generate_questions_chunked` and `generate_flashcards_chunked` return at
most `target_count` items, even when a call over-delivers; under-delivery
is possible (witnessed by the always-empty oracle). -/
theorem c3_at_most_target_items :
    ∀ (respond : Nat → Nat → PyStr) (target : Nat),
      (generate_questions_chunked respond target).1.length ≤ target
      ∧ (generate_flashcards_chunked respond target).1.length ≤ target
      ∧ (generate_questions_chunked (fun _ _ => []) 5).1 = [] := by
  intro respond target
  refine ⟨?_, ?_, rfl⟩ <;>
    simp [generate_questions_chunked, generate_flashcards_chunked,
      generate_content_chunked, List.length_take]

/-! ### C2: two zero-yield calls at target 20, chunk size 15 -/

/-- Claim C2 counterexample: with `target_count = 20`, the configured
quiz chunk size 15 and every generation call yielding zero valid items,
the loop issues exactly two calls — `(20 + 15 - 1) // 15 = 2` is the
whole budget — so no third call exists, contradicting the claimed "a
third generation call is issued ... with a halved chunk size". -/
theorem c2_counterexample :
    (generate_questions_chunked (fun _ _ => []) 20).2.1 = [(0, 15), (1, 15)]
    ∧ (generate_questions_chunked (fun _ _ => []) 20).2.1.length = 2 :=
  ⟨rfl, rfl⟩

/-- Claim C2 as amended: in that scenario the chunk-size variable is
indeed halved (15 → 7) after the second zero-yield call, but the upfront
call budget of 2 is then exhausted, so only two calls — both requesting
15 items — are issued and no items are returned; the halved size would
be used only if the initial budget exceeded two calls. -/
theorem c2_amended :
    (generate_questions_chunked (fun _ _ => []) 20).2.1 = [(0, 15), (1, 15)]
    ∧ (generate_questions_chunked (fun _ _ => []) 20).2.2 = 7
    ∧ (generate_questions_chunked (fun _ _ => []) 20).1 = [] :=
  ⟨rfl, rfl, rfl⟩

/-! ### C9: the call budget bounds the number of generation calls -/

/-- The loop issues at most `fuel` calls. -/
theorem chunkedLoop_calls_le_fuel (respond : Nat → Nat → PyStr)
    (validator : JsonVal → Option Bool) (target : Nat) :
    ∀ fuel idx cs acc fc,
      (chunkedLoop respond validator target fuel idx cs acc fc).2.1.length ≤ fuel := by
  intro fuel
  induction fuel with
  | zero => intro idx cs acc fc; simp [chunkedLoop]
  | succ n ih =>
    intro idx cs acc fc
    simp only [chunkedLoop]
    split
    · simp
    · split
      · split
        · simp
        · simpa using ih _ _ _ _
      · split
        · simp
        · simpa using ih _ _ _ _

/-- Claim C9: for `target_count ≥ 1` and initial `chunk_size ≥ 1`, the
chunked loop issues at most `⌈target_count / chunk_size⌉ =
(target_count + chunk_size - 1) / chunk_size` generation calls, the
budget being fixed before the loop from the initial chunk size; mid-loop
halving never increases the number of calls. -/
theorem c9_call_budget :
    ∀ (respond : Nat → Nat → PyStr) (validator : JsonVal → Option Bool)
      (target cs : Nat), 1 ≤ target → 1 ≤ cs →
      (generate_content_chunked respond validator target cs).2.1.length
        ≤ (target + cs - 1) / cs := by
  intro respond validator target cs _ _
  exact chunkedLoop_calls_le_fuel respond validator target _ 0 cs [] 0

/-- Witness for C9 at `target_count = 5`, `chunk_size = 2`. -/
theorem c9_call_budget_witness :
    (generate_content_chunked (fun _ _ => []) validate_quiz_item 5 2).2.1.length
      ≤ (5 + 2 - 1) / 2 :=
  c9_call_budget (fun _ _ => []) validate_quiz_item 5 2 (by decide) (by decide)

/-! ### C7: the Generation Client never raises -/

/-- The attempt loop issues at most `fuel` LLM calls. -/
theorem gen_attempts_calls_le (cache : List (PyStr × PyStr)) (prompt : PyStr)
    (llm : Nat → Except PyStr PyStr) :
    ∀ fuel i, (generate_content_attempts cache prompt llm fuel i).2.1 ≤ fuel := by
  intro fuel
  induction fuel with
  | zero => intro i; simp [generate_content_attempts]
  | succ n ih =>
    intro i
    simp only [generate_content_attempts]
    cases cache.lookup prompt with
    | some cached => simp
    | none =>
      cases llm i with
      | ok resp => simp
      | error e =>
        simp only []
        split
        · split
          · simpa using ih (i + 1)
          · simp
        · split
          · simpa using ih (i + 1)
          · simp

/-- If the cache misses and every attempt the loop can reach fails, the
loop returns the empty string. -/
theorem gen_attempts_all_fail (cache : List (PyStr × PyStr)) (prompt : PyStr)
    (llm : Nat → Except PyStr PyStr) (hmiss : cache.lookup prompt = none) :
    ∀ fuel i, (∀ j, j < i + fuel → ∃ e, llm j = .error e) →
      (generate_content_attempts cache prompt llm fuel i).1 = [] := by
  intro fuel
  induction fuel with
  | zero => intro i _; simp [generate_content_attempts]
  | succ n ih =>
    intro i hfail
    obtain ⟨e, he⟩ := hfail i (by omega)
    simp only [generate_content_attempts, hmiss, he]
    split
    · split
      · simpa using ih (i + 1) (fun j hj => hfail j (by omega))
      · simp
    · split
      · simpa using ih (i + 1) (fun j hj => hfail j (by omega))
      · simp

/-- Claim C7: `generate_content` issues at most
`gen_max_retries + 1 = 4` LLM calls, catches every exception, and — when
the prompt is not cached and every attempt fails — returns the empty
string instead of raising. -/
theorem c7_bounded_retries_then_empty :
    ∀ (cache : List (PyStr × PyStr)) (prompt : PyStr)
      (llm : Nat → Except PyStr PyStr),
      (generate_content cache prompt llm).2.1 ≤ gen_max_retries + 1
      ∧ (cache.lookup prompt = none →
         (∀ j, j ≤ gen_max_retries → ∃ e, llm j = .error e) →
         (generate_content cache prompt llm).1 = []) := by
  intro cache prompt llm
  constructor
  · exact gen_attempts_calls_le cache prompt llm (gen_max_retries + 1) 0
  · intro hmiss hfail
    exact gen_attempts_all_fail cache prompt llm hmiss (gen_max_retries + 1) 0
      (fun j hj => hfail j (by simpa [gen_max_retries] using Nat.lt_succ_iff.mp hj))

/-- Witness for C7: an uncached prompt whose every attempt raises a
rate-limit error yields the empty string after at most four calls. -/
theorem c7_bounded_retries_then_empty_witness :
    (generate_content [] ("p".toList) (fun _ => .error ("429".toList))).2.1
        ≤ gen_max_retries + 1
    ∧ (generate_content [] ("p".toList) (fun _ => .error ("429".toList))).1 = [] :=
  ⟨(c7_bounded_retries_then_empty [] ("p".toList) (fun _ => .error ("429".toList))).1,
   (c7_bounded_retries_then_empty [] ("p".toList) (fun _ => .error ("429".toList))).2
     rfl (fun _ _ => ⟨("429".toList), rfl⟩)⟩

/-! ### C4: similarity threshold and descending order -/

/-- Claim C4: every result of `similarity_search` scores at or above the
configured threshold; when the database rows arrive sorted descending
(as the `ORDER BY similarity_score DESC` of the query guarantees) the
returned sequence is sorted descending as well; and no more results are
returned than rows were fetched (the query fetches at most `top_k`), so
fewer than `top_k` — possibly zero — results are possible. -/
theorem c4_threshold_and_descending :
    ∀ (q : PyStr) (rows : List SearchRow),
      (∀ r ∈ similarity_search q (.ok rows), similarity_threshold ≤ r.similarity_score)
      ∧ (rows.Pairwise (fun a b => b.similarity_score ≤ a.similarity_score) →
         (similarity_search q (.ok rows)).Pairwise
           (fun a b => b.similarity_score ≤ a.similarity_score))
      ∧ (similarity_search q (.ok rows)).length ≤ rows.length := by
  intro q rows
  unfold similarity_search
  split
  · exact ⟨by simp, by simp, by simp⟩
  · refine ⟨?_, ?_, List.length_filter_le _ _⟩
    · intro r hr
      exact of_decide_eq_true (List.mem_filter.mp hr).2
    · intro hp
      exact hp.sublist (List.filter_sublist _)

/-- A concrete query for the C4 witness. -/
def c4Query : PyStr := "photosynthesis".toList

/-- Concrete descending database rows for the C4 witness. -/
def c4Rows : List SearchRow := [⟨['x'], 9 / 10⟩, ⟨['y'], 3 / 5⟩, ⟨['z'], 1 / 5⟩]

/-- Witness for C4 on concrete descending rows. -/
theorem c4_threshold_and_descending_witness :
    (∀ r ∈ similarity_search c4Query (.ok c4Rows),
        similarity_threshold ≤ r.similarity_score)
    ∧ (similarity_search c4Query (.ok c4Rows)).Pairwise
        (fun a b => b.similarity_score ≤ a.similarity_score)
    ∧ (similarity_search c4Query (.ok c4Rows)).length ≤ c4Rows.length :=
  ⟨(c4_threshold_and_descending c4Query c4Rows).1,
   (c4_threshold_and_descending c4Query c4Rows).2.1
     (by norm_num [c4Rows, List.pairwise_cons]),
   (c4_threshold_and_descending c4Query c4Rows).2.2⟩

/-! ### C6: chunk-and-embed is idempotent by document id -/

/-- Every row built for a document carries that document's id. -/
theorem buildRows_document_id (ids : Nat → Nat) (docId : PyStr)
    (chunks : List PyStr) (embs : List (List Int)) :
    ∀ r ∈ buildRows ids docId chunks embs, r.document_id = docId := by
  intro r hr
  simp only [buildRows, List.mem_map] at hr
  obtain ⟨p, _, rfl⟩ := hr
  rfl

/-- Claim C6: if chunks already exist for a document id,
`chunk_and_embed_document` performs no splitting, no embedding and no
insertion, and returns the existing chunk set unchanged; consequently a
second invocation after a first that created a (nonempty) chunk set
returns exactly the set the first invocation created, with no effects
and no state change. -/
theorem c6_idempotent_by_document_id :
    ∀ (split : PyStr → List PyStr) (embed : List PyStr → List (List Int))
      (ids : Nat → Nat) (db : List ChunkRow) (docId text : PyStr),
      ((db.any fun r => r.document_id == docId) = true →
        chunk_and_embed_document split embed ids db docId text
          = (.ok (db.filter fun r => r.document_id == docId), db, false, false))
      ∧ (∀ res db1 b1 b2,
          (db.any fun r => r.document_id == docId) = false →
          chunk_and_embed_document split embed ids db docId text = (.ok res, db1, b1, b2) →
          res ≠ [] →
          chunk_and_embed_document split embed ids db1 docId text
            = (.ok res, db1, false, false)) := by
  intro split embed ids db docId text
  constructor
  · intro h
    simp [chunk_and_embed_document, h]
  · intro res db1 b1 b2 hany heq hne
    rw [chunk_and_embed_document, if_neg (by simp [hany])] at heq
    by_cases hchunks : (split text).isEmpty
    · rw [if_pos hchunks] at heq
      cases heq
      exact absurd rfl hne
    · rw [if_neg hchunks] at heq
      by_cases hlen : (embed (split text)).length = (split text).length
      · rw [if_pos hlen] at heq
        have h1 : res = buildRows ids docId (split text) (embed (split text))
            ∧ db1 = db ++ buildRows ids docId (split text) (embed (split text)) := by
          have h2 := heq.symm
          simp only [Prod.mk.injEq, Except.ok.injEq] at h2
          exact ⟨h2.1, h2.2.1⟩
        obtain ⟨rfl, rfl⟩ := h1
        have hall : ∀ r ∈ buildRows ids docId (split text) (embed (split text)),
            (r.document_id == docId) = true := by
          intro r hr
          exact beq_iff_eq.mpr (buildRows_document_id ids docId _ _ r hr)
        have hmem : ∃ r ∈ db ++ buildRows ids docId (split text) (embed (split text)),
            (r.document_id == docId) = true := by
          obtain ⟨r, hr⟩ := List.exists_mem_of_ne_nil _ hne
          exact ⟨r, List.mem_append_right _ hr, hall r hr⟩
        rw [chunk_and_embed_document, if_pos (List.any_eq_true.mpr hmem)]
        have hdbnil : db.filter (fun r => r.document_id == docId) = [] := by
          rw [List.filter_eq_nil_iff]
          intro r hr
          have := List.any_eq_false.mp hany r hr
          simpa using this
        rw [List.filter_append, hdbnil, List.nil_append,
          List.filter_eq_self.mpr hall]
      · rw [if_neg hlen] at heq
        cases heq
  
/-- Concrete splitter for the C6 witness. -/
def c6Split : PyStr → List PyStr := fun _ => [("hello".toList)]

/-- Concrete embedder for the C6 witness. -/
def c6Embed : List PyStr → List (List Int) := fun l => l.map (fun _ => [1])

/-- The chunk row the first C6 invocation creates. -/
def c6Row : ChunkRow :=
  { id := 0, document_id := "d".toList, chunk_index := 0,
    content := "hello".toList, word_count := 1, embedding := [1] }

/-- Witness for C6: after a first call has chunked document `"d"` into
`[c6Row]`, the second call is a pure no-op returning the same set. -/
theorem c6_idempotent_by_document_id_witness :
    chunk_and_embed_document c6Split c6Embed (fun n => n) [c6Row]
        ("d".toList) ("hello".toList)
      = (.ok [c6Row], [c6Row], false, false) :=
  (c6_idempotent_by_document_id c6Split c6Embed (fun n => n) [] ("d".toList)
      ("hello".toList)).2 [c6Row] [c6Row] true true rfl rfl (by decide)

/-! ### C1: the Context Assembler budget -/

/-- The accumulation loop of the source, with `current_length = cur`,
equals the spec-side assembler at remaining budget `maxChars - cur`. -/
theorem context_parts_eq_assembleSpec (maxChars : Int) :
    ∀ (rs : List SearchRow) (cur : Int),
      context_parts maxChars rs cur = assembleSpec (maxChars - cur) rs := by
  intro rs
  induction rs with
  | nil => intro cur; simp [context_parts, assembleSpec]
  | cons r rest ih =>
    intro cur
    simp only [context_parts, assembleSpec]
    by_cases h : cur + ((pyStrip r.content).length : Int) ≤ maxChars
    · rw [if_pos h,
        if_pos (show ((pyStrip r.content).length : Int) ≤ maxChars - cur by omega), ih]
      have harith : maxChars - (cur + ((pyStrip r.content).length : Int))
          = maxChars - cur - ((pyStrip r.content).length : Int) := by ring
      rw [harith]
    · rw [if_neg h,
        if_neg (show ¬ ((pyStrip r.content).length : Int) ≤ maxChars - cur by omega)]

/-- The total character count of the assembled parts never exceeds a
nonnegative budget. -/
theorem assembleSpec_sum_le :
    ∀ (rs : List SearchRow) (budget : Int), 0 ≤ budget →
      ((assembleSpec budget rs).map (fun p : PyStr => (p.length : Int))).sum ≤ budget := by
  intro rs
  induction rs with
  | nil => intro budget h; simp [assembleSpec]; exact h
  | cons r rest ih =>
    intro budget h
    simp only [assembleSpec]
    by_cases hfit : ((pyStrip r.content).length : Int) ≤ budget
    · rw [if_pos hfit]
      simp only [List.map_cons, List.sum_cons]
      have := ih (budget - (pyStrip r.content).length) (by omega)
      omega
    · rw [if_neg hfit]
      by_cases hroom : min_context_chars < budget
      · rw [if_pos hroom]
        simp only [List.map_cons, List.map_nil, List.sum_cons, List.sum_nil,
          List.length_append, List.length_take]
        have h3 : ((budget - 3).toNat : Int) = budget - 3 := by
          rw [Int.toNat_of_nonneg]
          simp only [min_context_chars] at hroom
          omega
        have hmin : (min (budget - 3).toNat (pyStrip r.content).length : Int)
            ≤ ((budget - 3).toNat : Int) := by
          exact_mod_cast Nat.min_le_left _ _
        have hmark : trunc_marker.length = 3 := rfl
        push_cast
        omega
      · rw [if_neg hroom]
        simp
        exact h

/-- The assembler uses at most as many parts as there are results. -/
theorem assembleSpec_length_le :
    ∀ (rs : List SearchRow) (budget : Int),
      (assembleSpec budget rs).length ≤ rs.length := by
  intro rs
  induction rs with
  | nil => intro budget; simp [assembleSpec]
  | cons r rest ih =>
    intro budget
    simp only [assembleSpec]
    split
    · simpa using ih (budget - (pyStrip r.content).length)
    · split <;> simp

/-- `sep.join` adds exactly `sep.length` characters between consecutive
parts (all in `ℕ`). -/
theorem joinSep_length_exact (sep : PyStr) :
    ∀ (ps : List PyStr) (p : PyStr),
      (joinSep sep (p :: ps)).length
        = p.length + sep.length * ps.length + (ps.map List.length).sum := by
  intro ps
  induction ps with
  | nil => intro p; simp [joinSep]
  | cons q rest ih =>
    intro p
    have hq := ih q
    simp only [joinSep] at hq ⊢
    simp only [List.length_append, List.map_cons, List.sum_cons, List.length_cons] at hq ⊢
    rw [hq]
    ring

/-- Casting a sum of `ℕ` lengths into `ℤ` summand-wise. -/
theorem sum_length_cast_int :
    ∀ (l : List PyStr),
      ((l.map List.length).sum : Int) = (l.map (fun q : PyStr => (q.length : Int))).sum := by
  intro l
  induction l with
  | nil => simp
  | cons p ps ih => simp only [List.map_cons, List.sum_cons]; push_cast [ih]; ring

/-- Claim C1 as amended: the Context Assembler returns the empty string
when Similarity Search returns no results; its output never exceeds
`max_chars` plus the separator overhead of at most
`2 * (retrieval_top_k - 1) = 14` characters (the similarity query
returns at most `retrieval_top_k` rows); and it accumulates chunks in
ranked order with a first-overflow-then-stop policy in which the first
chunk that does not fit is truncated to the remaining budget minus a
3-character reserve and marked with `"..."` only when more than
`min_context_chars = 100` characters of budget remain, and is otherwise
dropped with no marker. -/
theorem c1_context_budget_amended :
    ∀ (rs : List SearchRow) (mc : Int),
      get_relevant_context (.ok []) mc = []
      ∧ (0 ≤ mc → rs.length ≤ retrieval_top_k →
          ((get_relevant_context (.ok rs) mc).length : Int)
            ≤ mc + 2 * ((retrieval_top_k : Int) - 1))
      ∧ (rs ≠ [] →
          get_relevant_context (.ok rs) mc
            = joinSep context_separator (assembleSpec mc rs)) := by
  intro rs mc
  have hspec : ∀ rs2 : List SearchRow, rs2.isEmpty = false →
      get_relevant_context (.ok rs2) mc
        = joinSep context_separator (assembleSpec mc rs2) := by
    intro rs2 hne
    simp only [get_relevant_context, hne, Bool.false_eq_true, if_false]
    rw [context_parts_eq_assembleSpec, sub_zero]
  refine ⟨rfl, ?_, ?_⟩
  · intro hmc htop
    cases hrs : rs.isEmpty
    · rw [hspec rs hrs]
      have hsum : ((assembleSpec mc rs).map (fun q : PyStr => (q.length : Int))).sum ≤ mc :=
        assembleSpec_sum_le rs mc hmc
      have hlen : (assembleSpec mc rs).length ≤ rs.length := assembleSpec_length_le rs mc
      cases hparts : assembleSpec mc rs with
      | nil =>
        simp only [joinSep, List.length_nil, Nat.cast_zero, retrieval_top_k]
        omega
      | cons p ps =>
        rw [hparts] at hsum hlen
        have hjoin := joinSep_length_exact context_separator ps p
        have hsep : context_separator.length = 2 := rfl
        rw [hsep] at hjoin
        have hjoinZ : ((joinSep context_separator (p :: ps)).length : Int)
            = (p.length : Int) + 2 * (ps.length : Int) + ((ps.map List.length).sum : Int) := by
          rw [hjoin]; push_cast; ring
        have hcast := sum_length_cast_int ps
        simp only [List.map_cons, List.sum_cons] at hsum
        simp only [List.length_cons] at hlen
        simp only [retrieval_top_k] at htop ⊢
        rw [hjoinZ, hcast]
        omega
    · simp only [List.isEmpty_iff] at hrs
      subst hrs
      simp only [get_relevant_context, List.isEmpty_nil, if_true, List.length_nil,
        Nat.cast_zero, retrieval_top_k]
      omega
  · intro hne
    exact hspec rs (by simpa using hne)

/-- The first chunk of the C1 counterexample: 60 characters. -/
def c1RowA : SearchRow := ⟨List.replicate 60 'a', 1⟩

/-- The second chunk of the C1 counterexample: 60 characters, which do
not fit in the 40 characters the 100-character budget has left. -/
def c1RowB : SearchRow := ⟨List.replicate 60 'b', 1⟩

/-- Claim C1 counterexample: with a 100-character budget and two
60-character chunks, the second chunk does not fit, yet — because only
40 ≤ 100 characters of budget remain — it is dropped without any
truncation or marker, so the output is the bare first chunk rather than
the truncated-and-marked form the claim prescribes. -/
theorem c1_counterexample :
    get_relevant_context (.ok [c1RowA, c1RowB]) 100 = List.replicate 60 'a'
    ∧ ¬ (((pyStrip c1RowA.content).length : Int)
          + ((pyStrip c1RowB.content).length : Int) ≤ 100)
    ∧ get_relevant_context (.ok [c1RowA, c1RowB]) 100
        ≠ List.replicate 60 'a' ++ context_separator
            ++ ((pyStrip c1RowB.content).take 37 ++ trunc_marker) := by
  refine ⟨rfl, by decide, by decide⟩

/-- Witness for C1 (amended) on a concrete result list and budget. -/
theorem c1_context_budget_amended_witness :
    ((get_relevant_context (.ok [c1RowA, c1RowB]) 100).length : Int)
        ≤ 100 + 2 * ((retrieval_top_k : Int) - 1)
    ∧ get_relevant_context (.ok [c1RowA, c1RowB]) 100
        = joinSep context_separator (assembleSpec 100 [c1RowA, c1RowB]) :=
  ⟨(c1_context_budget_amended [c1RowA, c1RowB] 100).2.1 (by decide) (by decide),
   (c1_context_budget_amended [c1RowA, c1RowB] 100).2.2 (by decide)⟩

/-! ### C5: the Embedding Engine preserves input order -/

instance instFstLeTotal {α : Type} : IsTotal (Nat × α) (fun a b => a.1 ≤ b.1) :=
  ⟨fun a b => Nat.le_total a.1 b.1⟩

instance instFstLeTrans {α : Type} : IsTrans (Nat × α) (fun a b => a.1 ≤ b.1) :=
  ⟨fun _ _ _ => Nat.le_trans⟩

instance instFstLtAntisymm {α : Type} : IsAntisymm (Nat × α) (fun a b => a.1 < b.1) :=
  ⟨fun _ _ h h2 => absurd (Nat.lt_trans h h2) (Nat.lt_irrefl _)⟩

/-- The miss component of the partition loop is exactly the cache
misses in input order, independently of the starting index. -/
theorem hitsMisses_misses (cache : List (PyStr × α)) :
    ∀ (ts : List PyStr) (i : Nat), (hitsMisses cache ts i).2.1 = missTexts cache ts := by
  intro ts
  induction ts with
  | nil => intro i; simp [hitsMisses, missTexts]
  | cons t ts ih =>
    intro i
    cases h : cache.lookup t with
    | some v => simp [hitsMisses, missTexts, List.filter_cons, h, ih (i + 1)]
    | none => simp [hitsMisses, missTexts, List.filter_cons, h, ih (i + 1)]

/-- The indexed pairs the merge step of the spec assigns to each input
position: a hit keeps its cached vector, a miss consumes the next newly
computed vector (when the vector supply runs dry, that position is
skipped, matching the truncating `zip` of the code). -/
def expectedPairs (cache : List (PyStr × α)) : Nat → List PyStr → List α → List (Nat × α)
  | _, [], _ => []
  | i, t :: ts, vs =>
    match cache.lookup t with
    | some v => (i, v) :: expectedPairs cache (i + 1) ts vs
    | none =>
      match vs with
      | [] => expectedPairs cache (i + 1) ts []
      | v :: vs2 => (i, v) :: expectedPairs cache (i + 1) ts vs2

/-- The unsorted hit/miss concatenation the code builds is a permutation
of the position-ordered pairs. -/
theorem pairs_perm_expected (cache : List (PyStr × α)) :
    ∀ (ts : List PyStr) (i : Nat) (vs : List α),
      List.Perm ((hitsMisses cache ts i).1 ++ ((hitsMisses cache ts i).2.2).zip vs)
        (expectedPairs cache i ts vs) := by
  intro ts
  induction ts with
  | nil => intro i vs; simp [hitsMisses, expectedPairs]
  | cons t ts ih =>
    intro i vs
    cases h : cache.lookup t with
    | some v =>
      simp only [hitsMisses, expectedPairs, h, List.cons_append]
      exact (ih (i + 1) vs).cons (i, v)
    | none =>
      cases vs with
      | nil =>
        simp only [hitsMisses, expectedPairs, h, List.zip_nil_right, List.append_nil]
        simpa using ih (i + 1) []
      | cons v vs2 =>
        simp only [hitsMisses, expectedPairs, h, List.zip_cons_cons]
        exact List.perm_middle.trans ((ih (i + 1) vs2).cons (i, v))

/-- Every expected pair sits at or after the starting index. -/
theorem expectedPairs_key_ge (cache : List (PyStr × α)) :
    ∀ (ts : List PyStr) (i : Nat) (vs : List α) (p : Nat × α),
      p ∈ expectedPairs cache i ts vs → i ≤ p.1 := by
  intro ts
  induction ts with
  | nil => intro i vs p hp; simp [expectedPairs] at hp
  | cons t ts ih =>
    intro i vs p hp
    cases h : cache.lookup t with
    | some v =>
      simp only [expectedPairs, h] at hp
      rcases List.mem_cons.mp hp with rfl | hmem
      · exact Nat.le_refl i
      · exact Nat.le_of_succ_le (ih (i + 1) vs p hmem)
    | none =>
      cases vs with
      | nil =>
        simp only [expectedPairs, h] at hp
        exact Nat.le_of_succ_le (ih (i + 1) [] p hp)
      | cons v vs2 =>
        simp only [expectedPairs, h] at hp
        rcases List.mem_cons.mp hp with rfl | hmem
        · exact Nat.le_refl i
        · exact Nat.le_of_succ_le (ih (i + 1) vs2 p hmem)

/-- The expected pairs are strictly increasing in their position key. -/
theorem expectedPairs_pairwise (cache : List (PyStr × α)) :
    ∀ (ts : List PyStr) (i : Nat) (vs : List α),
      (expectedPairs cache i ts vs).Pairwise (fun a b => a.1 < b.1) := by
  intro ts
  induction ts with
  | nil => intro i vs; simp [expectedPairs]
  | cons t ts ih =>
    intro i vs
    cases h : cache.lookup t with
    | some v =>
      simp only [expectedPairs, h]
      exact List.Pairwise.cons
        (fun p hp => Nat.lt_of_succ_le (expectedPairs_key_ge cache ts (i + 1) vs p hp))
        (ih (i + 1) vs)
    | none =>
      cases vs with
      | nil =>
        simp only [expectedPairs, h]
        exact ih (i + 1) []
      | cons v vs2 =>
        simp only [expectedPairs, h]
        exact List.Pairwise.cons
          (fun p hp => Nat.lt_of_succ_le (expectedPairs_key_ge cache ts (i + 1) vs2 p hp))
          (ih (i + 1) vs2)

/-- When the vector supply matches the number of misses, projecting the
expected pairs to their vectors is exactly the spec-side order-merging
walk. -/
theorem expectedPairs_snd (cache : List (PyStr × α)) :
    ∀ (ts : List PyStr) (vs : List α) (i : Nat),
      vs.length = (missTexts cache ts).length →
      (expectedPairs cache i ts vs).map Prod.snd = mergeBack cache ts vs := by
  intro ts
  induction ts with
  | nil => intro vs i _; simp [expectedPairs, mergeBack]
  | cons t ts ih =>
    intro vs i h
    cases hl : cache.lookup t with
    | some v =>
      have h2 : vs.length = (missTexts cache ts).length := by
        simpa [missTexts, List.filter_cons, hl] using h
      simp only [expectedPairs, mergeBack, hl, List.map_cons]
      simp [ih vs (i + 1) h2]
    | none =>
      cases vs with
      | nil =>
        exfalso
        simp only [missTexts, List.filter_cons, hl, Option.isNone_none, if_true,
          List.length_nil, List.length_cons] at h
        exact absurd h.symm (Nat.succ_ne_zero _)
      | cons v vs2 =>
        have h2 : vs2.length = (missTexts cache ts).length := by
          simpa [missTexts, List.filter_cons, hl] using h
        simp only [expectedPairs, mergeBack, hl, List.map_cons]
        simp [ih vs2 (i + 1) h2]

/-- Sorting by the (distinct) position keys recovers the strictly
increasing expected sequence from any permutation of it. -/
theorem insertionSort_eq_of_perm_pairwise {α : Type} :
    ∀ (pairs expected : List (Nat × α)),
      List.Perm pairs expected →
      expected.Pairwise (fun a b => a.1 < b.1) →
      pairs.insertionSort (fun a b => a.1 ≤ b.1) = expected := by
  intro pairs expected hperm hpw
  have hsorted : (pairs.insertionSort (fun a b => a.1 ≤ b.1)).Sorted
      (fun a b => a.1 ≤ b.1) := List.sorted_insertionSort _ pairs
  have hperm2 : List.Perm (pairs.insertionSort (fun a b => a.1 ≤ b.1)) expected :=
    (List.perm_insertionSort _ pairs).trans hperm
  have hnodupE : (expected.map Prod.fst).Nodup := by
    have hm : (expected.map Prod.fst).Pairwise (· < ·) := List.pairwise_map.mpr hpw
    exact hm.imp Nat.ne_of_lt
  have hnodupS : ((pairs.insertionSort (fun a b => a.1 ≤ b.1)).map Prod.fst).Nodup :=
    ((hperm2.map Prod.fst).nodup_iff).mpr hnodupE
  have hneS : (pairs.insertionSort (fun a b => a.1 ≤ b.1)).Pairwise
      (fun a b => a.1 ≠ b.1) := List.pairwise_map.mp hnodupS
  have hltS : (pairs.insertionSort (fun a b => a.1 ≤ b.1)).Pairwise
      (fun a b => a.1 < b.1) :=
    (hsorted.and hneS).imp (fun h => Nat.lt_of_le_of_ne h.1 h.2)
  exact List.eq_of_perm_of_sorted hperm2 hltS hpw

/-- The spec-side merging walk yields one vector per input text when the
vector supply matches the misses. -/
theorem mergeBack_length (cache : List (PyStr × α)) :
    ∀ (ts : List PyStr) (vs : List α),
      vs.length = (missTexts cache ts).length →
      (mergeBack cache ts vs).length = ts.length := by
  intro ts
  induction ts with
  | nil => intro vs _; simp [mergeBack]
  | cons t ts ih =>
    intro vs h
    cases hl : cache.lookup t with
    | some v =>
      have h2 : vs.length = (missTexts cache ts).length := by
        simpa [missTexts, List.filter_cons, hl] using h
      simp only [mergeBack, hl, List.length_cons]
      simp [ih vs h2]
    | none =>
      cases vs with
      | nil =>
        exfalso
        simp only [missTexts, List.filter_cons, hl, Option.isNone_none, if_true,
          List.length_nil, List.length_cons] at h
        exact absurd h.symm (Nat.succ_ne_zero _)
      | cons v vs2 =>
        have h2 : vs2.length = (missTexts cache ts).length := by
          simpa [missTexts, List.filter_cons, hl] using h
        simp only [mergeBack, hl, List.length_cons]
        simp [ih vs2 h2]

/-- Claim C5: provided the embedding model returns one vector per
requested text, `create_embeddings` returns exactly one vector per input
text in input order — each cache hit keeps its cached vector and each
miss receives the newly computed vector of its batch position,
regardless of the hit/miss mix — and the empty input yields the empty
output. -/
theorem c5_order_preserving {α : Type} :
    ∀ (encode : List PyStr → List α) (cache : List (PyStr × α)) (texts : List PyStr),
      (encode (missTexts cache texts)).length = (missTexts cache texts).length →
      create_embeddings encode cache texts
          = mergeBack cache texts
              (if (missTexts cache texts).isEmpty then []
               else encode (missTexts cache texts))
      ∧ (create_embeddings encode cache texts).length = texts.length
      ∧ create_embeddings encode cache ([] : List PyStr) = [] := by
  intro encode cache texts hlen
  have hvslen : (if (missTexts cache texts).isEmpty then []
      else encode (missTexts cache texts)).length = (missTexts cache texts).length := by
    cases he : (missTexts cache texts).isEmpty
    · simpa [he] using hlen
    · simp [he, List.isEmpty_iff.mp he]
  have hmain : create_embeddings encode cache texts
      = mergeBack cache texts
          (if (missTexts cache texts).isEmpty then []
           else encode (missTexts cache texts)) := by
    cases texts with
    | nil => simp [create_embeddings, mergeBack]
    | cons t ts =>
      simp only [create_embeddings, List.isEmpty_cons, Bool.false_eq_true, if_false]
      rw [hitsMisses_misses]
      rw [insertionSort_eq_of_perm_pairwise _ _
        (pairs_perm_expected cache (t :: ts) 0 _)
        (expectedPairs_pairwise cache (t :: ts) 0 _)]
      exact expectedPairs_snd cache (t :: ts) _ 0 hvslen
  refine ⟨hmain, ?_, rfl⟩
  rw [hmain]
  exact mergeBack_length cache texts _ hvslen

/-- Concrete embedding model for the C5 witness: each text maps to the
one-element vector of its length. -/
def c5Encode : List PyStr → List (List Int) := fun ts => ts.map (fun t => [(t.length : Int)])

/-- Concrete prior cache content for the C5 witness: `"b"` is
pre-cached. -/
def c5Cache : List (PyStr × List Int) := [(['b'], [99])]

/-- Concrete mixed batch for the C5 witness: a miss, a hit, a miss. -/
def c5Texts : List PyStr := [['a', 'a'], ['b'], ['c', 'c', 'c']]

/-- Witness for C5 on a mixed hit/miss batch. -/
theorem c5_order_preserving_witness :
    create_embeddings c5Encode c5Cache c5Texts
        = mergeBack c5Cache c5Texts
            (if (missTexts c5Cache c5Texts).isEmpty then []
             else c5Encode (missTexts c5Cache c5Texts))
    ∧ (create_embeddings c5Encode c5Cache c5Texts).length = c5Texts.length
    ∧ create_embeddings c5Encode c5Cache ([] : List PyStr) = [] :=
  c5_order_preserving c5Encode c5Cache c5Texts rfl
